import Mathlib

/-!
# A verification of `src/etc/htmldocck.py`

This file shallowly embeds the htmldocck checker script: the directive
parser (`concat_multi_lines`, `get_commands`), the tree model and
`flatten`, the HTML-parser event handlers (`handle_starttag`,
`handle_startendtag`), the resource cache (`resolve_path`, `get_file`,
`get_tree`), the string and tree checks (`check_string`,
`check_tree_attr`, `check_tree_text`, `check_tree_count`,
`normalize_xpath`) and the check engine (`check`).

External library behaviour that the script calls into (Python's `re`
regex search, ElementTree's XPath `findall`, `shlex.split`, and the
file system) is abstracted as parameters of an `Env` structure; every
piece of logic written in the script itself is translated directly.
Python strings are modelled as `String`, with the Python primitives
(`str.split`, `str.strip`, `str.startswith`, `str.partition`,
`os.path.normpath`, truthiness, `int(...)`) re-implemented faithfully
on `List Char`.
-/

namespace Htmldocck

/-- The characters Python 2's `str.split()` / `str.strip()` treat as
whitespace: space, tab, newline, carriage return, vertical tab, form feed. -/
def isPySpace (c : Char) : Bool :=
  c = ' ' || c = '\t' || c = '\n' || c = '\r' || c = Char.ofNat 11 || c = Char.ofNat 12

/-- Python truthiness of an optional string (`None` and `''` are falsy). -/
def pyTruthy : Option String → Bool
  | none => false
  | some s => !s.isEmpty

/-- The string content of an optional string (`''` for `None`). -/
def optStr : Option String → String
  | none => ""
  | some s => s

/-- `listPrefixOf pre l` : is `pre` a prefix of `l`? (Python `startswith`.) -/
def listPrefixOf : List Char → List Char → Bool
  | [], _ => true
  | _ :: _, [] => false
  | a :: as, b :: bs => a = b && listPrefixOf as bs

/-- `listInfixOf n l` : is `n` a contiguous sublist of `l`? (Python `in`.) -/
def listInfixOf (n : List Char) : List Char → Bool
  | [] => n.isEmpty
  | c :: cs => listPrefixOf n (c :: cs) || listInfixOf n cs

/-- Python `pre in s` substring test on strings. -/
def pyIn (needle hay : String) : Bool := listInfixOf needle.toList hay.toList

/-- Python `s.startswith(pre)`. -/
def pyStartswith (s pre : String) : Bool := listPrefixOf pre.toList s.toList

/-- Python `s.endswith(suf)`. -/
def pyEndswith (s suf : String) : Bool :=
  listPrefixOf suf.toList.reverse s.toList.reverse

/-- Python `s[:-n]` for `n ≤ len s` : drop the last `n` characters. -/
def pyDropRight (s : String) (n : Nat) : String :=
  String.mk (s.toList.take (s.toList.length - n))

/-- Python `s.lstrip()` : drop leading whitespace. -/
def pyLstrip (s : String) : String := String.mk (s.toList.dropWhile isPySpace)

/-- Python `line.rstrip('\r\n')` : drop trailing CR/LF characters. -/
def rstripCrLf (s : String) : String :=
  String.mk ((s.toList.reverse.dropWhile (fun c => c = '\r' || c = '\n')).reverse)

/-- Worker for Python `str.split()`: accumulate the current word (reversed)
and split on runs of whitespace, dropping empty words. -/
def pySplitGo : List Char → List Char → List (List Char)
  | [], cur => if cur.isEmpty then [] else [cur.reverse]
  | c :: cs, cur =>
    if isPySpace c then
      if cur.isEmpty then pySplitGo cs []
      else cur.reverse :: pySplitGo cs []
    else pySplitGo cs (c :: cur)

/-- Python `s.split()` with no argument: split on whitespace runs,
no empty fields, leading/trailing whitespace ignored. -/
def pySplit (s : String) : List String := (pySplitGo s.toList []).map String.mk

/-- `' '.join(s.split())` — the whitespace normalization used by `check_string`. -/
def normWs (s : String) : String := String.intercalate " " (pySplit s)

/-- Maximal prefix of ASCII letters (the `[A-Za-z]+` of `LINE_PATTERN`). -/
def takeLetters (l : List Char) : List Char × List Char :=
  (l.takeWhile (fun c => ('A' ≤ c && c ≤ 'Z') || ('a' ≤ c && c ≤ 'z')),
   l.dropWhile (fun c => ('A' ≤ c && c ≤ 'Z') || ('a' ≤ c && c ≤ 'z')))

/-- Split a character list at the first occurrence of `needle`, returning
the parts before and after it (`str.partition` search). -/
def findSplit (needle : List Char) : List Char → Option (List Char × List Char)
  | [] => if needle.isEmpty then some ([], []) else none
  | c :: cs =>
    if listPrefixOf needle (c :: cs) then some ([], (c :: cs).drop needle.length)
    else
      match findSplit needle cs with
      | some (pre, post) => some (c :: pre, post)
      | none => none

/-- Python `s.partition(sep)`: `(before, found?, after)`; when the separator
does not occur the result is `(s, false, "")`. -/
def pyPartition (s sep : String) : String × Bool × String :=
  match findSplit sep.toList s.toList with
  | some (a, b) => (String.mk a, true, String.mk b)
  | none => (s, false, "")

/-- Digits-to-number helper for `pyInt`. -/
def digitsToNat : List Char → Option Nat
  | [] => none
  | ds =>
    if ds.all (fun c => '0' ≤ c && c ≤ '9') then
      some (ds.foldl (fun acc c => acc * 10 + (c.toNat - '0'.toNat)) 0)
    else none

/-- Python 2 `int(s)`: optional surrounding whitespace, optional sign,
then decimal digits; `none` models the `ValueError` on anything else. -/
def pyInt (s : String) : Option Int :=
  let t := (s.toList.dropWhile isPySpace).reverse.dropWhile isPySpace |>.reverse
  match t with
  | '-' :: ds => (digitsToNat ds).map (fun n => -(n : Int))
  | '+' :: ds => (digitsToNat ds).map (fun n => (n : Int))
  | ds => (digitsToNat ds).map (fun n => (n : Int))

/-- Split a character list on a single separator character, keeping empty
fields (Python `s.split('/')`). -/
def splitOnChar (sep : Char) : List Char → List (List Char)
  | [] => [[]]
  | c :: cs =>
    let rest := splitOnChar sep cs
    if c = sep then [] :: rest
    else
      match rest with
      | [] => [[c]]
      | r :: rs => (c :: r) :: rs

/-- `posixpath.normpath`: collapse `//`, `.` and `..` components exactly as
CPython does (`os.path.normpath` on POSIX). -/
def normpath (path : String) : String :=
  if path = "" then "."
  else
    let initialSlashes : Nat :=
      if pyStartswith path "/" then
        if pyStartswith path "//" && !(pyStartswith path "///") then 2 else 1
      else 0
    let comps := (splitOnChar '/' path.toList).map String.mk
    let newComps := comps.foldl (fun acc comp =>
      if comp = "" || comp = "." then acc
      else if comp ≠ ".." || (initialSlashes = 0 && acc.isEmpty)
              || (!acc.isEmpty && acc.getLast? = some "..") then acc ++ [comp]
      else if !acc.isEmpty then acc.dropLast
      else acc) []
    let joined := String.intercalate "/" newComps
    let full := String.mk (List.replicate initialSlashes '/') ++ joined
    if full = "" then "." else full

/-- `posixpath.join(root, path)` restricted to two arguments. -/
def pyJoin (root path : String) : String :=
  if pyStartswith path "/" then path
  else if root = "" || pyEndswith root "/" then root ++ path
  else root ++ "/" ++ path

/-! ## The tree model (ElementTree elements as built by `CustomHTMLParser`) -/

/-- One markup element: tag, attributes (insertion-ordered mapping),
optional leading text, optional tail text, and children in document order. -/
inductive Node where
  | mk (tag : String) (attrs : List (String × String)) (text : Option String)
       (tail : Option String) (children : List Node)

def Node.tag : Node → String
  | .mk t _ _ _ _ => t

def Node.attrs : Node → List (String × String)
  | .mk _ a _ _ _ => a

def Node.text : Node → Option String
  | .mk _ _ tx _ _ => tx

def Node.tail : Node → Option String
  | .mk _ _ _ tl _ => tl

def Node.children : Node → List Node
  | .mk _ _ _ _ ch => ch

/-- `{p with children := p.children ++ [c]}` for the single-constructor `Node`. -/
def Node.appendChild : Node → Node → Node
  | .mk t a tx tl ch, c => .mk t a tx tl (ch ++ [c])

mutual
/-- `_flatten(node, acc)`: append the node's text (when truthy), then fold
over the children appending each child's flattened text and tail. -/
def _flatten : Node → List String → List String
  | .mk _ _ text _ children, acc =>
    _flattenList children (if pyTruthy text then acc ++ [optStr text] else acc)

/-- The `for e in node` loop body of `_flatten`: recurse into the child,
then append the child's tail when truthy. -/
def _flattenList : List Node → List String → List String
  | [], acc => acc
  | e :: es, acc =>
    _flattenList es
      (if pyTruthy e.tail then _flatten e acc ++ [optStr e.tail] else _flatten e acc)
end

/-- `flatten(node)`: `''.join` of the accumulated pieces. -/
def flatten (n : Node) : String := String.join (_flatten n [])

/-! ## `CustomHTMLParser`: the event handlers over a `TreeBuilder` -/

/-- The "void elements" set from the script (HTML Standard section 12.1.2). -/
def VOID_ELEMENTS : List String :=
  ["area", "base", "br", "col", "embed", "hr", "img", "input", "keygen",
   "link", "menuitem", "meta", "param", "source", "track", "wbr"]

/-- The errors the script can raise (`RuntimeError`s, plus the `ValueError`
from `int(...)` and the `ValueError` from `shlex`). -/
inductive Err where
  | cannotOpen (path : String)
  | cannotParse (path : String)
  | nonAbsoluteXPath
  | usedPrevPathFirst
  | invalidArgCount (cmd : String) (lineno : Nat)
  | unimplemented (cmd : String) (lineno : Nat)
  | unrecognized (cmd : String) (lineno : Nat)
  | checkFailed (negated : Bool) (cmd : String) (lineno : Nat)
  | trailingBackslash
  | invalidIntArg (s : String)
  | invalidSyntax (lineno : Nat)
  | mismatchedTag
  | shlexError
deriving DecidableEq, Repr

/-- `ET.TreeBuilder` state: the stack of open elements (innermost first)
and the finished root once the outermost element is closed. -/
structure Builder where
  stack : List Node
  root : Option Node

/-- `TreeBuilder.start(tag, attrs)`: open a new element. -/
def Builder.start (b : Builder) (tag : String) (attrs : List (String × String)) : Builder :=
  ⟨Node.mk tag attrs none none [] :: b.stack, b.root⟩

/-- `TreeBuilder.end(tag)`: close the innermost open element, attaching it
to its parent (or recording it as the root); a tag mismatch or an end
without a matching start is a failure. -/
def Builder.end_ (b : Builder) (tag : String) : Except Err Builder :=
  match b.stack with
  | [] => .error .mismatchedTag
  | t :: rest =>
    if t.tag ≠ tag then .error .mismatchedTag
    else
      match rest with
      | [] => .ok ⟨[], some t⟩
      | p :: rs => .ok ⟨p.appendChild t :: rs, b.root⟩

/-- Python `dict((k, v or '') for k, v in attrs)`: value defaulting plus
dict semantics (a later duplicate key overwrites the earlier value in place). -/
def dictUpd (d : List (String × String)) (k v : String) : List (String × String) :=
  if d.any (fun p => p.1 = k) then d.map (fun p => if p.1 = k then (k, v) else p)
  else d ++ [(k, v)]

def pyDict (l : List (String × Option String)) : List (String × String) :=
  l.foldl (fun d kv => dictUpd d kv.1 (kv.2.getD "")) []

/-- `CustomHTMLParser.handle_starttag`: normalize the attributes, start the
element, and immediately end it when the tag is a void element. -/
def handle_starttag (b : Builder) (tag : String)
    (attrs : List (String × Option String)) : Except Err Builder :=
  let attrs' := pyDict attrs
  let b' := b.start tag attrs'
  if VOID_ELEMENTS.contains tag then b'.end_ tag else .ok b'

/-- `CustomHTMLParser.handle_endtag`. -/
def handle_endtag (b : Builder) (tag : String) : Except Err Builder :=
  b.end_ tag

/-- `CustomHTMLParser.handle_startendtag`: normalize the attributes, then
start and immediately end the element. -/
def handle_startendtag (b : Builder) (tag : String)
    (attrs : List (String × Option String)) : Except Err Builder :=
  let attrs' := pyDict attrs
  (b.start tag attrs').end_ tag

/-! ## The directive parser -/

/-- One parsed `@` directive (the `Command` namedtuple). -/
structure Command where
  negated : Bool
  cmd : String
  args : List String
  lineno : Nat
deriving DecidableEq, Repr

/-- The longest-common-prefix length loop of `concat_multi_lines`. -/
def commonPrefixLen : List Char → List Char → Nat
  | a :: as, b :: bs => if a = b then commonPrefixLen as bs + 1 else 0
  | _, _ => 0

/-- Python `firstlineno or lineno` — `None` and `0` are both falsy. -/
def pyOrNat : Option Nat → Nat → Nat
  | none, l => l
  | some 0, l => l
  | some k, _ => k

/-- The loop of `concat_multi_lines`: `lineno` is the current 0-based line
number, `lastline`/`firstlineno`/`catenated` the generator's state. -/
def concatGo (lineno : Nat) (lastline : Option String) (firstlineno : Option Nat)
    (catenated : String) : List String → Except Err (List (Nat × String))
  | [] => if lastline.isSome then .error .trailingBackslash else .ok []
  | l :: rest =>
    let line := rstripCrLf l
    let line :=
      match lastline with
      | none => line
      | some ll => pyLstrip (String.mk (line.toList.drop (commonPrefixLen line.toList ll.toList)))
    let firstlineno' := pyOrNat firstlineno lineno
    if pyEndswith line "\\" then
      concatGo (lineno + 1) (some (pyDropRight line 1)) (some firstlineno')
        (catenated ++ pyDropRight line 1) rest
    else
      (concatGo (lineno + 1) none none "" rest).map
        (fun out => (firstlineno', catenated ++ line) :: out)

/-- `concat_multi_lines(f)`: merge backslash-continued lines, stripping the
shared prefix with the previous physical line from each continuation, and
report each merged line with a 0-based first-line number. -/
def concat_multi_lines (lines : List String) : Except Err (List (Nat × String)) :=
  concatGo 0 none none "" lines

/-- Greedy `(?:-[A-Za-z]+)*` scan of `LINE_PATTERN`, with explicit fuel
(each group consumes at least two characters, so `l.length` suffices). -/
def groupScan : Nat → List Char → List Char × List Char
  | fuel + 1, '-' :: rest =>
    let (ls, rest') := takeLetters rest
    if ls.isEmpty then ([], '-' :: rest)
    else
      let (more, fin) := groupScan fuel rest'
      ('-' :: (ls ++ more), fin)
  | _, l => ([], l)

/-- Try to match `(?P<negated>!?)(?P<cmd>[A-Za-z]+(?:-[A-Za-z]+)*)(?P<args>.*)$`
at the position just after an `@`. -/
def tryMatch (rest : List Char) : Option (Bool × String × String) :=
  let (neg, r1) := match rest with
    | '!' :: t => (true, t)
    | _ => (false, rest)
  let (ls, r2) := takeLetters r1
  if ls.isEmpty then none
  else
    let (more, r3) := groupScan r2.length r2
    some (neg, String.mk (ls ++ more), String.mk r3)

/-- `LINE_PATTERN.search`: scan for the leftmost `@` that is at the start
of the line or preceded by whitespace (`(?<!\S)@`) and is followed by a
match of the directive grammar. -/
def findDirectiveGo (prevOk : Bool) : List Char → Option (Bool × String × String)
  | [] => none
  | c :: rest =>
    if c = '@' && prevOk then
      match tryMatch rest with
      | some r => some r
      | none => findDirectiveGo (isPySpace c) rest
    else findDirectiveGo (isPySpace c) rest

def findDirective (line : String) : Option (Bool × String × String) :=
  findDirectiveGo true line.toList

/-- The per-line body of `get_commands`: extract a directive if the line has
one, raising on a non-whitespace character glued to the command name;
`shlex` abstracts Python's `shlex.split` (`none` models its `ValueError`). -/
def getCommandsGo (shlex : String → Option (List String)) :
    List (Nat × String) → Except Err (List Command)
  | [] => .ok []
  | (lineno, line) :: rest =>
    match findDirective line with
    | none => getCommandsGo shlex rest
    | some (negated, cmd, args) =>
      if !args.isEmpty && !(args.toList.take 1).all isPySpace then
        .error (.invalidSyntax (lineno + 1))
      else
        match shlex args with
        | none => .error .shlexError
        | some tokens =>
          (getCommandsGo shlex rest).map
            (fun out => ⟨negated, cmd, tokens, lineno + 1⟩ :: out)

/-- `get_commands(template)` over the template's physical lines. -/
def get_commands (shlex : String → Option (List String)) (lines : List String) :
    Except Err (List Command) := do
  let merged ← concat_multi_lines lines
  getCommandsGo shlex merged

/-! ## The resource cache and the checks -/

/-- The external behaviour the script calls into: `re.search` (pattern then
data, as a boolean "is there a match"), ElementTree's `findall`, and the
file system (`readFile path = none` models an `open` failure, `parseHTML
content = none` a parse failure of `ET.parse` with `CustomHTMLParser`). -/
structure Env where
  regexSearch : String → String → Bool
  findall : Node → String → List Node
  readFile : String → Option String
  parseHTML : String → Option Node

/-- `CachedFiles`: the root directory, the two memoization tables and the
"last resolved path" slot. -/
structure CachedFiles where
  root : String
  files : List (String × String)
  trees : List (String × Node)
  last_path : Option String

/-- `CachedFiles.resolve_path`: an explicit path is normalized and recorded
as the last path; `-` returns the last path, erroring when there is none.
The state is threaded even through errors (a Python raise keeps mutations). -/
def resolve_path (st : CachedFiles) (path : String) :
    Except Err String × CachedFiles :=
  if path ≠ "-" then
    let np := normpath path
    (.ok np, { st with last_path := some np })
  else
    match st.last_path with
    | none => (.error .usedPrevPathFirst, st)
    | some lp => (.ok lp, st)

/-- `CachedFiles.get_file`: resolve, consult the raw-text cache, and on a
miss read from storage, caching only on success. -/
def get_file (env : Env) (st : CachedFiles) (path : String) :
    Except Err String × CachedFiles :=
  match resolve_path st path with
  | (.error e, st') => (.error e, st')
  | (.ok p, st') =>
    match st'.files.lookup p with
    | some data => (.ok data, st')
    | none =>
      match env.readFile (pyJoin st'.root p) with
      | none => (.error (.cannotOpen p), st')
      | some data => (.ok data, { st' with files := st'.files ++ [(p, data)] })

/-- `CachedFiles.get_tree`: resolve, consult the tree cache, and on a miss
open and parse from storage, caching only on success. -/
def get_tree (env : Env) (st : CachedFiles) (path : String) :
    Except Err Node × CachedFiles :=
  match resolve_path st path with
  | (.error e, st') => (.error e, st')
  | (.ok p, st') =>
    match st'.trees.lookup p with
    | some tree => (.ok tree, st')
    | none =>
      match env.readFile (pyJoin st'.root p) with
      | none => (.error (.cannotOpen p), st')
      | some content =>
        match env.parseHTML content with
        | none => (.error (.cannotParse p), st')
        | some tree => (.ok tree, { st' with trees := st'.trees ++ [(p, tree)] })

/-- `check_string(data, pat, regexp)`: an empty pattern always succeeds;
a regex pattern is searched in the raw data; otherwise both sides are
whitespace-normalized and a substring test is made. -/
def check_string (regexSearch : String → String → Bool)
    (data pat : String) (regexp : Bool) : Bool :=
  if pat.isEmpty then true
  else if regexp then regexSearch pat data
  else pyIn (normWs pat) (normWs data)

/-- `normalize_xpath(path)`: `//…` gets a `.` prepended, `.//…` is kept,
anything else is rejected. -/
def normalize_xpath (path : String) : Except Err String :=
  if pyStartswith path "//" then .ok ("." ++ path)
  else if pyStartswith path ".//" then .ok path
  else .error .nonAbsoluteXPath

/-- The `for e in tree.findall(path)` loop of `check_tree_attr`, threading
the `ret` variable exactly as the Python does (`continue` keeps it). -/
def checkTreeAttrGo (regexSearch : String → String → Bool)
    (attr pat : String) (regexp : Bool) : List Node → Bool → Bool
  | [], ret => ret
  | e :: es, ret =>
    match e.attrs.lookup attr with
    | none => checkTreeAttrGo regexSearch attr pat regexp es ret
    | some value =>
      let ret := check_string regexSearch value pat regexp
      if ret then ret else checkTreeAttrGo regexSearch attr pat regexp es ret

/-- `check_tree_attr(tree, path, attr, pat, regexp)`. -/
def check_tree_attr (env : Env) (tree : Node) (path attr pat : String)
    (regexp : Bool) : Except Err Bool :=
  (normalize_xpath path).map
    (fun p => checkTreeAttrGo env.regexSearch attr pat regexp (env.findall tree p) false)

/-- The `for e in tree.findall(path)` loop of `check_tree_text`. -/
def checkTreeTextGo (regexSearch : String → String → Bool)
    (pat : String) (regexp : Bool) : List Node → Bool → Bool
  | [], ret => ret
  | e :: es, _ =>
    let ret := check_string regexSearch (flatten e) pat regexp
    if ret then ret else checkTreeTextGo regexSearch pat regexp es ret

/-- `check_tree_text(tree, path, pat, regexp)`. -/
def check_tree_text (env : Env) (tree : Node) (path pat : String)
    (regexp : Bool) : Except Err Bool :=
  (normalize_xpath path).map
    (fun p => checkTreeTextGo env.regexSearch pat regexp (env.findall tree p) false)

/-- `check_tree_count(tree, path, count)`. -/
def check_tree_count (env : Env) (tree : Node) (path : String) (count : Int) :
    Except Err Bool :=
  (normalize_xpath path).map
    (fun p => decide (((env.findall tree p).length : Int) = count))

/-! ## The check engine -/

/-- The evaluation part of one iteration of `check`'s loop (lines computing
`ret`): dispatch on the command name and argument count, threading the
cache state through every call, including the two separate `get_tree`
calls the source makes in the three-argument branch. -/
def evalDirective (env : Env) (st : CachedFiles) (c : Command) :
    Except Err Bool × CachedFiles :=
  if c.cmd = "has" || c.cmd = "matches" then
    let regexp := c.cmd = "matches"
    match c.args with
    | [path] =>
      if regexp then (.error (.invalidArgCount c.cmd c.lineno), st)
      else
        match get_file env st path with
        | (.ok _, st') => (.ok true, st')
        | (.error _, st') => (.ok false, st')
    | [path, pat] =>
      match get_file env st path with
      | (.error e, st') => (.error e, st')
      | (.ok data, st') => (.ok (check_string env.regexSearch data pat regexp), st')
    | [path, query, pat] =>
      match get_tree env st path with
      | (.error e, st') => (.error e, st')
      | (.ok _, st') =>
        match pyPartition query "/@" with
        | (left, true, attr) =>
          match get_tree env st' path with
          | (.error e, st'') => (.error e, st'')
          | (.ok tree, st'') =>
            match check_tree_attr env tree left attr pat regexp with
            | .error e => (.error e, st'')
            | .ok r => (.ok r, st'')
        | (_, false, _) =>
          let q := if pyEndswith query "/text()" then pyDropRight query 7 else query
          match get_tree env st' path with
          | (.error e, st'') => (.error e, st'')
          | (.ok tree, st'') =>
            match check_tree_text env tree q pat regexp with
            | .error e => (.error e, st'')
            | .ok r => (.ok r, st'')
    | _ => (.error (.invalidArgCount c.cmd c.lineno), st)
  else if c.cmd = "count" then
    match c.args with
    | [path, query, countStr] =>
      match get_tree env st path with
      | (.error e, st') => (.error e, st')
      | (.ok tree, st') =>
        match pyInt countStr with
        | none => (.error (.invalidIntArg countStr), st')
        | some k =>
          match check_tree_count env tree query k with
          | .error e => (.error e, st')
          | .ok r => (.ok r, st')
    | _ => (.error (.invalidArgCount c.cmd c.lineno), st)
  else if c.cmd = "valid-html" then (.error (.unimplemented c.cmd c.lineno), st)
  else if c.cmd = "valid-links" then (.error (.unimplemented c.cmd c.lineno), st)
  else (.error (.unrecognized c.cmd c.lineno), st)

/-- One full iteration of `check`'s loop: evaluate the directive, then
raise a check failure iff the raw result equals the negation flag. -/
def check1 (env : Env) (st : CachedFiles) (c : Command) :
    Except Err Unit × CachedFiles :=
  match evalDirective env st c with
  | (.error e, st') => (.error e, st')
  | (.ok ret, st') =>
    if ret = c.negated then (.error (.checkFailed c.negated c.cmd c.lineno), st')
    else (.ok (), st')

/-- The loop of `check(target, commands)`. -/
def checkAll (env : Env) (st : CachedFiles) : List Command → Except Err Unit × CachedFiles
  | [] => (.ok (), st)
  | c :: cs =>
    match check1 env st c with
    | (.ok _, st') => checkAll env st' cs
    | (.error e, st') => (.error e, st')

/-- `check(target, commands)`. -/
def check (env : Env) (target : String) (commands : List Command) :
    Except Err Unit × CachedFiles :=
  checkAll env ⟨target, [], [], none⟩ commands

/-- A chain of `n + 1` successive `-` placeholder resolutions. -/
def dashChain (st : CachedFiles) : Nat → Except Err String × CachedFiles
  | 0 => resolve_path st "-"
  | n + 1 =>
    let (_, st') := resolve_path st "-"
    dashChain st' n

/-! ## Helper lemmas -/

theorem join_append (a b : List String) :
    String.join (a ++ b) = String.join a ++ String.join b := by
  apply String.ext
  simp [String.join_eq]

theorem join_singleton (s : String) : String.join [s] = s := by
  apply String.ext
  simp [String.join_eq]

theorem join_cons (s : String) (l : List String) :
    String.join (s :: l) = s ++ String.join l := by
  apply String.ext
  simp [String.join_eq]

theorem optStr_of_not_truthy {o : Option String} (h : pyTruthy o = false) :
    optStr o = "" := by
  cases o with
  | none => rfl
  | some s =>
    simp [pyTruthy] at h
    simpa [optStr] using (String.isEmpty_iff s).mp h

/-- A string starting with `.//` does not start with `//`. -/
theorem not_slashSlash_of_dotSlashSlash {q : String}
    (h : pyStartswith q ".//" = true) : pyStartswith q "//" = false := by
  unfold pyStartswith at h ⊢
  rw [show (".//" : String).toList = ['.', '/', '/'] from rfl] at h
  rw [show ("//" : String).toList = ['/', '/'] from rfl]
  cases hl : q.toList with
  | nil => rw [hl] at h; exact absurd h (by decide)
  | cons c cs =>
    rw [hl] at h
    rw [listPrefixOf] at h ⊢
    have hc : ('.' : Char) = c := of_decide_eq_true ((Bool.and_eq_true _ _).mp h).1
    rw [← hc]
    rw [show (decide (('/' : Char) = '.')) = false from rfl]
    exact Bool.false_and _

/-! ## C7: path-query normalization -/

/-- C7: for every query string `q`, if `q` begins with `//` then
`normalize_xpath` returns `q` with a `.` prepended; if `q` begins with
`.//` it returns `q` unchanged; otherwise it raises a usage error
(never an empty "no match" result). -/
theorem C7_normalize_xpath (q : String) :
    (pyStartswith q "//" = true → normalize_xpath q = .ok ("." ++ q))
  ∧ (pyStartswith q ".//" = true → normalize_xpath q = .ok q)
  ∧ (pyStartswith q "//" = false → pyStartswith q ".//" = false →
      normalize_xpath q = .error .nonAbsoluteXPath) := by
  refine ⟨fun h => ?_, fun h => ?_, fun h1 h2 => ?_⟩
  · simp [normalize_xpath, h]
  · simp [normalize_xpath, h, not_slashSlash_of_dotSlashSlash h]
  · simp [normalize_xpath, h1, h2]

/-- Witness for C7 at the three concrete queries `//a`, `.//a` and `a`. -/
theorem C7_normalize_xpath_witness :
    normalize_xpath "//a" = .ok ".//a"
  ∧ normalize_xpath ".//a" = .ok ".//a"
  ∧ normalize_xpath "a" = .error .nonAbsoluteXPath :=
  ⟨(C7_normalize_xpath "//a").1 (by decide),
   (C7_normalize_xpath ".//a").2.1 (by decide),
   (C7_normalize_xpath "a").2.2 (by decide) (by decide)⟩

/-! ## C4: `flatten` -/

mutual
theorem _flatten_acc : ∀ (n : Node) (acc : List String),
    _flatten n acc = acc ++ _flatten n []
  | .mk tg a tx tl ch, acc => by
    cases h : pyTruthy tx with
    | true =>
      simp only [_flatten, h, ite_true, List.nil_append]
      rw [_flattenList_acc ch (acc ++ [optStr tx]), _flattenList_acc ch [optStr tx],
        List.append_assoc]
    | false =>
      simp only [_flatten, h, Bool.false_eq_true, ite_false]
      exact _flattenList_acc ch acc

theorem _flattenList_acc : ∀ (l : List Node) (acc : List String),
    _flattenList l acc = acc ++ _flattenList l []
  | [], acc => by simp [_flattenList]
  | e :: es, acc => by
    cases h : pyTruthy e.tail with
    | true =>
      simp only [_flattenList, h, ite_true]
      rw [_flattenList_acc es (_flatten e acc ++ [optStr e.tail]),
        _flattenList_acc es (_flatten e [] ++ [optStr e.tail]),
        _flatten_acc e acc]
      simp [List.append_assoc]
    | false =>
      simp only [_flattenList, h, Bool.false_eq_true, ite_false]
      rw [_flattenList_acc es (_flatten e acc), _flattenList_acc es (_flatten e []),
        _flatten_acc e acc, List.append_assoc]
end

theorem flatten_cons (e : Node) (es : List Node) :
    String.join (_flattenList (e :: es) []) =
      flatten e ++ optStr e.tail ++ String.join (_flattenList es []) := by
  cases h : pyTruthy e.tail with
  | true =>
    simp only [_flattenList, h, ite_true]
    rw [_flattenList_acc es (_flatten e [] ++ [optStr e.tail]),
      join_append, join_append, join_singleton]
    simp [flatten]
  | false =>
    simp only [_flattenList, h, Bool.false_eq_true, ite_false]
    rw [_flattenList_acc es (_flatten e []), join_append, optStr_of_not_truthy h]
    simp [flatten]

/-- C4: for every tree node `n`, `flatten n` is the concatenation, in
document order, of `n`'s leading text with, for each child `c` in order,
`flatten c` followed by `c`'s tail text; `n`'s own tail is not included. -/
theorem C4_flatten_spec (n : Node) :
    flatten n = optStr n.text
      ++ String.join (n.children.map (fun c => flatten c ++ optStr c.tail)) := by
  obtain ⟨tg, a, tx, tl, ch⟩ := n
  show String.join (_flatten (.mk tg a tx tl ch) []) = _
  simp only [Node.text, Node.children]
  have hch : ∀ l : List Node, String.join (_flattenList l []) =
      String.join (l.map (fun c => flatten c ++ optStr c.tail)) := by
    intro l
    induction l with
    | nil => simp [_flattenList, String.join]
    | cons e es ih =>
      rw [flatten_cons, ih, List.map_cons, join_cons]
  cases h : pyTruthy tx with
  | true =>
    simp only [_flatten, h, ite_true, List.nil_append]
    rw [_flattenList_acc ch [optStr tx], join_append, join_singleton, hch]
  | false =>
    simp only [_flatten, h, Bool.false_eq_true, ite_false]
    rw [hch, optStr_of_not_truthy h]
    simp

/-! ## C9: the empty pattern is a pure presence test -/

theorem check_string_empty_pat (rs : String → String → Bool) (data : String)
    (regexp : Bool) : check_string rs data "" regexp = true := rfl

theorem checkTreeTextGo_empty_pat (rs : String → String → Bool) (regexp : Bool) :
    ∀ l : List Node, checkTreeTextGo rs "" regexp l false = !l.isEmpty := by
  intro l
  cases l with
  | nil => rfl
  | cons e es => simp [checkTreeTextGo, check_string_empty_pat]

theorem checkTreeAttrGo_empty_pat (rs : String → String → Bool) (regexp : Bool)
    (attr : String) : ∀ l : List Node,
    checkTreeAttrGo rs attr "" regexp l false =
      l.any (fun e => (e.attrs.lookup attr).isSome) := by
  intro l
  induction l with
  | nil => rfl
  | cons e es ih =>
    rw [checkTreeAttrGo]
    cases h : e.attrs.lookup attr with
    | none => simp [h, ih]
    | some v => simp [h, check_string_empty_pat]

/-- C9: the string check with an empty pattern returns true unconditionally
in both modes, so a query-based `has`/`matches` with pattern `""` is a pure
presence test: the text form passes iff the query matches at least one node,
and the attribute form passes iff at least one matching node carries the
named attribute. -/
theorem C9_empty_pattern (rs : String → String → Bool) :
    (∀ (data : String) (regexp : Bool), check_string rs data "" regexp = true)
  ∧ (∀ (env : Env) (tree : Node) (q nq : String) (regexp : Bool),
      normalize_xpath q = .ok nq →
      check_tree_text env tree q "" regexp = .ok (!(env.findall tree nq).isEmpty))
  ∧ (∀ (env : Env) (tree : Node) (q nq attr : String) (regexp : Bool),
      normalize_xpath q = .ok nq →
      check_tree_attr env tree q attr "" regexp =
        .ok ((env.findall tree nq).any (fun e => (e.attrs.lookup attr).isSome))) := by
  refine ⟨fun data regexp => rfl, fun env tree q nq regexp h => ?_, fun env tree q nq attr regexp h => ?_⟩
  · simp [check_tree_text, h, checkTreeTextGo_empty_pat, Except.map]
  · simp [check_tree_attr, h, checkTreeAttrGo_empty_pat, Except.map]

/-- Witness for C9 at a concrete environment whose query engine returns a
single `<a href="x">` node. -/
theorem C9_empty_pattern_witness :
    check_tree_text
      ⟨fun _ _ => false, fun _ _ => [Node.mk "a" [("href", "x")] none none []],
       fun _ => none, fun _ => none⟩
      (Node.mk "html" [] none none []) "//a" "" false = .ok true
  ∧ check_tree_attr
      ⟨fun _ _ => false, fun _ _ => [Node.mk "a" [("href", "x")] none none []],
       fun _ => none, fun _ => none⟩
      (Node.mk "html" [] none none []) "//a" "href" "" false = .ok true := by
  have h := C9_empty_pattern (fun _ _ => false)
  exact ⟨h.2.1 _ _ "//a" ".//a" false rfl, h.2.2 _ _ "//a" ".//a" "href" false rfl⟩

/-! ## C3: the `-` placeholder -/

/-- C3: for every path `p` other than `-`, a successful `resolve_path p`
returns the normalized `p` and stores it; every subsequent chain of `-`
resolutions returns that same resolved path without changing the state;
and resolving `-` before any explicit path is a usage error. -/
theorem C3_resolve_path (st : CachedFiles) (p : String) (h : p ≠ "-") :
    resolve_path st p = (.ok (normpath p), { st with last_path := some (normpath p) })
  ∧ (∀ n, dashChain { st with last_path := some (normpath p) } n =
      (.ok (normpath p), { st with last_path := some (normpath p) }))
  ∧ (∀ st₀ : CachedFiles, st₀.last_path = none →
      resolve_path st₀ "-" = (.error .usedPrevPathFirst, st₀)) := by
  refine ⟨by simp [resolve_path, h], ?_, ?_⟩
  · intro n
    induction n with
    | zero => rfl
    | succ n ih => exact ih
  · intro st₀ h₀
    simp [resolve_path, h₀]

/-- Witness for C3: resolve `x/y`, then two chained `-` uses, and the
error on a first-command `-`. -/
theorem C3_resolve_path_witness :
    resolve_path ⟨"out", [], [], none⟩ "x/y" = (.ok "x/y", ⟨"out", [], [], some "x/y"⟩)
  ∧ dashChain ⟨"out", [], [], some "x/y"⟩ 1 = (.ok "x/y", ⟨"out", [], [], some "x/y"⟩)
  ∧ resolve_path ⟨"out", [], [], none⟩ "-" = (.error .usedPrevPathFirst, ⟨"out", [], [], none⟩) := by
  have h := C3_resolve_path ⟨"out", [], [], none⟩ "x/y" (by decide)
  exact ⟨h.1, h.2.1 1, h.2.2 _ rfl⟩

/-! ## C8: void elements -/

/-- C8: for every tag in the void-element set and every attribute list,
a start-tag event with no following end-tag event produces exactly the
same builder transition as a self-closing-tag event, and the node attached
has the given tag, the normalized attributes, and zero children. -/
theorem C8_void_elements (b : Builder) (tag : String)
    (attrs : List (String × Option String)) (h : VOID_ELEMENTS.contains tag = true) :
    handle_starttag b tag attrs = handle_startendtag b tag attrs
  ∧ (b.stack = [] → handle_starttag b tag attrs =
      .ok ⟨[], some (Node.mk tag (pyDict attrs) none none [])⟩)
  ∧ (∀ p rs, b.stack = p :: rs → handle_starttag b tag attrs =
      .ok ⟨p.appendChild (Node.mk tag (pyDict attrs) none none []) :: rs, b.root⟩) := by
  have hmem : tag ∈ VOID_ELEMENTS := by simpa using h
  refine ⟨?_, ?_, ?_⟩
  · simp [handle_starttag, handle_startendtag, h, hmem]
  · intro hs
    simp [handle_starttag, h, hmem, Builder.start, Builder.end_, Node.tag, hs]
  · intro p rs hs
    simp [handle_starttag, h, hmem, Builder.start, Builder.end_, Node.tag, hs]

/-- Witness for C8 at the void tag `br` with a valueless attribute. -/
theorem C8_void_elements_witness :
    handle_starttag ⟨[], none⟩ "br" [("class", none)] =
      handle_startendtag ⟨[], none⟩ "br" [("class", none)]
  ∧ handle_starttag ⟨[], none⟩ "br" [("class", none)] =
      .ok ⟨[], some (Node.mk "br" [("class", "")] none none [])⟩ := by
  have h := C8_void_elements ⟨[], none⟩ "br" [("class", none)] (by decide)
  exact ⟨h.1, h.2.1 rfl⟩

/-! ## C6: the `has` whitespace-normalized substring test -/

theorem pySplitGo_all_space : ∀ ws : List Char, ws.all isPySpace = true →
    ∀ cur : List Char, pySplitGo ws cur = if cur.isEmpty then [] else [cur.reverse] := by
  intro ws
  induction ws with
  | nil => intro _ cur; rfl
  | cons c w ih =>
    intro h cur
    rw [List.all_cons, Bool.and_eq_true] at h
    rw [pySplitGo]
    simp only [h.1, ite_true]
    cases hcur : cur.isEmpty with
    | true => simp only [ite_true]; rw [ih h.2 []]; rfl
    | false => simp only [Bool.false_eq_true, ite_false]; rw [ih h.2 []]; rfl

theorem pySplitGo_append_space (ws : List Char) (hws : ws.all isPySpace = true) :
    ∀ (cs cur : List Char), pySplitGo (cs ++ ws) cur = pySplitGo cs cur := by
  intro cs
  induction cs with
  | nil =>
    intro cur
    rw [List.nil_append, pySplitGo_all_space ws hws cur]
    rfl
  | cons c cs' ih =>
    intro cur
    rw [List.cons_append, pySplitGo, pySplitGo]
    cases hc : isPySpace c with
    | true => simp only [ite_true]; rw [ih []]
    | false => simp only [Bool.false_eq_true, ite_false]; exact ih (c :: cur)

theorem pySplitGo_space_append (ws : List Char) (hws : ws.all isPySpace = true)
    (cs : List Char) : pySplitGo (ws ++ cs) [] = pySplitGo cs [] := by
  induction ws with
  | nil => rfl
  | cons c w ih =>
    rw [List.all_cons, Bool.and_eq_true] at hws
    rw [List.cons_append, pySplitGo]
    simp only [hws.1, ite_true, List.isEmpty_nil]
    exact ih hws.2

theorem pySplit_pad (ws₁ ws₂ p : String) (h1 : ws₁.toList.all isPySpace = true)
    (h2 : ws₂.toList.all isPySpace = true) :
    pySplit (ws₁ ++ p ++ ws₂) = pySplit p := by
  unfold pySplit
  congr 1
  have hl : (ws₁ ++ p ++ ws₂).toList = ws₁.toList ++ (p.toList ++ ws₂.toList) := by
    show (ws₁ ++ p ++ ws₂).data = ws₁.data ++ (p.data ++ ws₂.data)
    simp [String.data_append]
  rw [hl, pySplitGo_space_append _ h1, pySplitGo_append_space _ h2]

theorem normWs_pad (ws₁ ws₂ p : String) (h1 : ws₁.toList.all isPySpace = true)
    (h2 : ws₂.toList.all isPySpace = true) :
    normWs (ws₁ ++ p ++ ws₂) = normWs p := by
  unfold normWs
  rw [pySplit_pad ws₁ ws₂ p h1 h2]

/-- C6: for every data string and non-empty pattern, the two-argument `has`
test succeeds iff the whitespace-normalized pattern is a literal substring
of the whitespace-normalized data; in particular, padding the pattern with
leading/trailing whitespace never affects the result. -/
theorem C6_has_normalized (rs : String → String → Bool) (data pat : String)
    (h : pat ≠ "") :
    check_string rs data pat false = pyIn (normWs pat) (normWs data)
  ∧ (∀ ws₁ ws₂ : String, ws₁.toList.all isPySpace = true →
      ws₂.toList.all isPySpace = true →
      check_string rs data (ws₁ ++ pat ++ ws₂) false =
        check_string rs data pat false) := by
  have hne : pat.isEmpty = false :=
    Bool.eq_false_iff.mpr (fun hh => h ((String.isEmpty_iff pat).mp hh))
  constructor
  · simp [check_string, hne]
  · intro ws₁ ws₂ h1 h2
    have hne2 : (ws₁ ++ pat ++ ws₂).isEmpty = false := by
      apply Bool.eq_false_iff.mpr
      intro hh
      have hz := congrArg String.data ((String.isEmpty_iff _).mp hh)
      simp only [String.data_append] at hz
      rcases List.append_eq_nil.mp hz with ⟨hrest, _⟩
      rcases List.append_eq_nil.mp hrest with ⟨_, hp⟩
      exact h (String.ext (hp.trans rfl))
    simp [check_string, hne, hne2, normWs_pad ws₁ ws₂ pat h1 h2]

/-- Witness for C6: the pattern `a \n b` is found in `a   b c` after
normalization, and padding the pattern with whitespace changes nothing. -/
theorem C6_has_normalized_witness :
    check_string (fun _ _ => false) "a   b c" "a \n b" false = true
  ∧ check_string (fun _ _ => false) "a   b c" ("  " ++ "a \n b" ++ " \t") false =
      check_string (fun _ _ => false) "a   b c" "a \n b" false := by
  have h := C6_has_normalized (fun _ _ => false) "a   b c" "a \n b" (by decide)
  exact ⟨by rw [h.1]; rfl, h.2 "  " " \t" (by decide) (by decide)⟩

/-! ## C1: the negation law of the check engine -/

/-- C1: whenever a directive's evaluation completes with a boolean `r`
without raising, the engine raises a check failure exactly when `r` equals
the negation flag (so the directive passes iff `r ≠ negated`); and a wrong
argument count, an unimplemented or an unrecognized command raises its
usage error for every value of the negation flag. -/
theorem C1_negation_law (env : Env) (st : CachedFiles) (c : Command) :
    (∀ (r : Bool) (st' : CachedFiles), evalDirective env st c = (.ok r, st') →
        ((check1 env st c).1 = .error (.checkFailed c.negated c.cmd c.lineno) ↔
            r = c.negated)
      ∧ ((check1 env st c).1 = .ok () ↔ ¬ r = c.negated))
  ∧ ((c.cmd = "has" ∨ c.cmd = "matches") → (c.args.length = 0 ∨ 4 ≤ c.args.length) →
      (check1 env st c).1 = .error (.invalidArgCount c.cmd c.lineno))
  ∧ (c.cmd = "matches" → c.args.length = 1 →
      (check1 env st c).1 = .error (.invalidArgCount c.cmd c.lineno))
  ∧ (c.cmd = "count" → c.args.length ≠ 3 →
      (check1 env st c).1 = .error (.invalidArgCount c.cmd c.lineno))
  ∧ (c.cmd = "valid-html" → (check1 env st c).1 = .error (.unimplemented c.cmd c.lineno))
  ∧ (c.cmd = "valid-links" → (check1 env st c).1 = .error (.unimplemented c.cmd c.lineno))
  ∧ (c.cmd ≠ "has" → c.cmd ≠ "matches" → c.cmd ≠ "count" → c.cmd ≠ "valid-html" →
      c.cmd ≠ "valid-links" →
      (check1 env st c).1 = .error (.unrecognized c.cmd c.lineno)) := by
  obtain ⟨neg, cmd, args, ln⟩ := c
  refine ⟨?_, ?_, ?_, ?_, ?_, ?_, ?_⟩
  · intro r st' h
    unfold check1
    rw [h]
    by_cases hr : r = neg
    · simp [hr]
    · simp [hr]
  · rintro (rfl | rfl) (h0 | h4)
    · obtain rfl : args = [] := List.length_eq_zero.mp h0
      rfl
    · rcases args with _ | ⟨a, _ | ⟨b, _ | ⟨c', _ | ⟨d, rest⟩⟩⟩⟩
      · rfl
      · simp at h4
      · simp at h4
      · simp at h4
      · rfl
    · obtain rfl : args = [] := List.length_eq_zero.mp h0
      rfl
    · rcases args with _ | ⟨a, _ | ⟨b, _ | ⟨c', _ | ⟨d, rest⟩⟩⟩⟩
      · rfl
      · simp at h4
      · simp at h4
      · simp at h4
      · rfl
  · rintro rfl h1
    rcases args with _ | ⟨a, _ | ⟨b, t⟩⟩
    · simp at h1
    · rfl
    · simp at h1
  · rintro rfl h3
    rcases args with _ | ⟨a, _ | ⟨b, _ | ⟨c', rest⟩⟩⟩
    · rfl
    · rfl
    · rfl
    · rcases rest with _ | ⟨d, rest'⟩
      · exact absurd rfl h3
      · rfl
  · rintro rfl; rfl
  · rintro rfl; rfl
  · intro h1 h2 h3 h4 h5
    simp [check1, evalDirective, h1, h2, h3, h4, h5]

/-- A file system whose every read fails and whose query engine matches
nothing; used to instantiate the engine theorems. -/
def env0 : Env := ⟨fun _ _ => false, fun _ _ => [], fun _ => none, fun _ => none⟩

/-- An empty cache over an empty root. -/
def st0 : CachedFiles := ⟨"", [], [], none⟩

/-- Witness for C1: `@has f` on a missing file `f` evaluates to `false`
without raising and the unnegated directive fails. -/
theorem C1_negation_law_witness :
    (check1 env0 st0 ⟨false, "has", ["f"], 1⟩).1 =
      .error (.checkFailed false "has" 1) := by
  have h := (C1_negation_law env0 st0 ⟨false, "has", ["f"], 1⟩).1 false
    ⟨"", [], [], some "f"⟩ rfl
  exact h.1.mpr rfl

/-! ## C5: exactness of `count` -/

/-- C5: a `count` directive with exactly three arguments, over a tree that
loads, a count argument that parses, and a valid query, passes iff the
number of matched nodes equals the expected count exactly; any strictly
smaller or strictly larger match count fails. -/
theorem C5_count_exact (env : Env) (st st₁ : CachedFiles) (tree : Node)
    (p q kstr nq : String) (k : Int) (ln : Nat)
    (hT : get_tree env st p = (.ok tree, st₁))
    (hK : pyInt kstr = some k)
    (hQ : normalize_xpath q = .ok nq) :
    evalDirective env st ⟨false, "count", [p, q, kstr], ln⟩ =
      (.ok (decide (((env.findall tree nq).length : Int) = k)), st₁)
  ∧ (check1 env st ⟨false, "count", [p, q, kstr], ln⟩ = (.ok (), st₁) ↔
      ((env.findall tree nq).length : Int) = k)
  ∧ ((((env.findall tree nq).length : Int) < k ∨
        k < ((env.findall tree nq).length : Int)) →
      check1 env st ⟨false, "count", [p, q, kstr], ln⟩ =
        (.error (.checkFailed false "count" ln), st₁)) := by
  have hc : check_tree_count env tree q k =
      .ok (decide (((env.findall tree nq).length : Int) = k)) := by
    simp [check_tree_count, hQ, Except.map]
  have e1 : evalDirective env st ⟨false, "count", [p, q, kstr], ln⟩ =
      (.ok (decide (((env.findall tree nq).length : Int) = k)), st₁) := by
    rw [show evalDirective env st ⟨false, "count", [p, q, kstr], ln⟩ =
      (match get_tree env st p with
       | (.error e, st') => (.error e, st')
       | (.ok tree', st') =>
         match pyInt kstr with
         | none => (.error (.invalidIntArg kstr), st')
         | some k' =>
           match check_tree_count env tree' q k' with
           | .error e => (.error e, st')
           | .ok r => (.ok r, st')) from rfl]
    rw [hT, hK]
    show (match check_tree_count env tree q k with
          | Except.error e => ((Except.error e : Except Err Bool), st₁)
          | Except.ok r => (Except.ok r, st₁)) =
        (Except.ok (decide (((env.findall tree nq).length : Int) = k)), st₁)
    rw [hc]
  refine ⟨e1, ?_, ?_⟩
  · constructor
    · intro hok
      by_contra hk
      have hd := decide_eq_false hk
      have : check1 env st ⟨false, "count", [p, q, kstr], ln⟩ =
          (.error (.checkFailed false "count" ln), st₁) := by
        unfold check1; rw [e1]; simp [hd]
      rw [this] at hok
      simp at hok
    · intro hk
      have hd := decide_eq_true hk
      unfold check1; rw [e1]; simp [hd]
  · intro hlt
    have hk : ¬ ((env.findall tree nq).length : Int) = k := by
      rcases hlt with hl | hl <;> omega
    have hd := decide_eq_false hk
    unfold check1; rw [e1]; simp [hd]

/-- A file system where every file reads as `x` and parses to an empty
`<html>` element, with a query engine that matches nothing. -/
def env1 : Env :=
  ⟨fun _ _ => false, fun _ _ => [], fun _ => some "x",
   fun _ => some (Node.mk "html" [] none none [])⟩

/-- Witness for C5: `@count f.html //li 0` passes when the query matches
zero nodes. -/
theorem C5_count_exact_witness :
    check1 env1 st0 ⟨false, "count", ["f.html", "//li", "0"], 7⟩ =
      (.ok (), ⟨"", [], [("f.html", Node.mk "html" [] none none [])], some "f.html"⟩) := by
  have h := C5_count_exact env1 st0
    ⟨"", [], [("f.html", Node.mk "html" [] none none [])], some "f.html"⟩
    (Node.mk "html" [] none none []) "f.html" "//li" "0" ".//li" 0 7 rfl rfl rfl
  exact h.2.1.mpr rfl

/-! ## C10: failed loads are not cached, but the last path is updated -/

/-- C10: when loading an explicit path fails (unopenable file, or a tree
that fails to parse), the raw-text and parsed-tree caches are unchanged,
while the last-resolved-path slot has already been updated to the
normalized path, so a subsequent `-` resolves to the path that failed. -/
theorem C10_cache_frame (env : Env) (st : CachedFiles) (p : String) (hp : p ≠ "-") :
    (st.files.lookup (normpath p) = none →
      env.readFile (pyJoin st.root (normpath p)) = none →
      get_file env st p =
        (.error (.cannotOpen (normpath p)), { st with last_path := some (normpath p) }))
  ∧ (st.trees.lookup (normpath p) = none →
      env.readFile (pyJoin st.root (normpath p)) = none →
      get_tree env st p =
        (.error (.cannotOpen (normpath p)), { st with last_path := some (normpath p) }))
  ∧ (∀ content, st.trees.lookup (normpath p) = none →
      env.readFile (pyJoin st.root (normpath p)) = some content →
      env.parseHTML content = none →
      get_tree env st p =
        (.error (.cannotParse (normpath p)), { st with last_path := some (normpath p) }))
  ∧ resolve_path { st with last_path := some (normpath p) } "-" =
      (.ok (normpath p), { st with last_path := some (normpath p) }) := by
  have hres : resolve_path st p =
      (.ok (normpath p), { st with last_path := some (normpath p) }) := by
    simp [resolve_path, hp]
  refine ⟨?_, ?_, ?_, rfl⟩
  · intro hlk hrd
    simp only [get_file, hres]
    simp [hlk, hrd]
  · intro hlk hrd
    simp only [get_tree, hres]
    simp [hlk, hrd]
  · intro content hlk hrd hparse
    simp only [get_tree, hres]
    simp [hlk, hrd, hparse]

/-- Witness for C10: an unopenable file and an unparsable file both leave
the caches empty while `-` afterwards resolves to the failed path. -/
theorem C10_cache_frame_witness :
    get_file env0 st0 "f" = (.error (.cannotOpen "f"), ⟨"", [], [], some "f"⟩)
  ∧ get_tree env0 st0 "f" = (.error (.cannotOpen "f"), ⟨"", [], [], some "f"⟩)
  ∧ resolve_path ⟨"", [], [], some "f"⟩ "-" = (.ok "f", ⟨"", [], [], some "f"⟩) := by
  have h := C10_cache_frame env0 st0 "f" (by decide)
  exact ⟨h.1 rfl rfl, h.2.1 rfl rfl, h.2.2.2⟩

/-! ## C2: the reported line number of a continued first line -/

/-- C2 (code bug): a backslash-continued directive whose first physical
line is the very first line of the file is reported at line 2, not line 1:
`firstlineno = firstlineno or lineno` treats the stored first-line number
`0` as falsy and replaces it with the continuation's line number, against
the function's own docstring ("keeps a line number ... of the first line
being concatenated"). -/
theorem C2_firstline_lineno :
    concat_multi_lines ["@has a \\", "b"] = .ok [(1, "@has a b")]
  ∧ get_commands (fun s => some (pySplit s)) ["@has a \\", "b"] =
      .ok [⟨false, "has", ["a", "b"], 2⟩]
  ∧ concat_multi_lines ["x", "@has a \\", "b"] = .ok [(0, "x"), (1, "@has a b")] :=
  ⟨rfl, rfl, rfl⟩

end Htmldocck
